import Mathlib

/-!
# Verification of the MotoGP-API client core

Shallow embedding of the pure core of the `Vasolix/MotoGP-API` TypeScript
repository: the lap-time conversion helpers and category lookup from
`src/types/results.ts`, and the request pipeline (URL query construction,
error normalization) and constructor defaulting from
`src/client/MotoGPClient.ts`.

JavaScript strings are modelled as `List Char`, JS numbers appearing in the
claims as `Nat`/`Int`, and fallible parsing (`parseInt` returning `NaN`)
as `Option Int`.
-/

/-- JS strings, modelled as lists of characters. -/
abbrev JStr := List Char

/-- `true` on the ASCII decimal digit characters `'0'..'9'`
(character codes 48..57). -/
def isDigitChar (c : Char) : Bool := 48 ≤ c.toNat && c.toNat ≤ 57

/-- Numeric value of a decimal digit character. -/
def digitVal (c : Char) : Nat := c.toNat - 48

/-- Value of a string of decimal digit characters, most significant first. -/
def digitsVal (l : JStr) : Nat := l.foldl (fun a c => a * 10 + digitVal c) 0

/-- The decimal digit character for `d ≤ 9`. -/
def digitChar (d : Nat) : Char :=
  match d with
  | 0 => '0' | 1 => '1' | 2 => '2' | 3 => '3' | 4 => '4'
  | 5 => '5' | 6 => '6' | 7 => '7' | 8 => '8' | _ => '9'

/-- Decimal digit characters of a positive number, fuel-recursive so that it
reduces in the kernel (`fuel ≥ n` suffices). -/
def natToCharsAux : Nat → Nat → JStr
  | _, 0 => []
  | 0, _ + 1 => []
  | fuel + 1, n + 1 =>
    natToCharsAux fuel ((n + 1) / 10) ++ [digitChar ((n + 1) % 10)]

/-- Decimal representation of a natural number, as produced by the JS
number-to-string conversion in template literals (no sign, no padding). -/
def natToChars (n : Nat) : JStr := if n = 0 then ['0'] else natToCharsAux n n

/-- The JS whitespace characters skipped by `parseInt`. -/
def jsWhitespace (c : Char) : Bool :=
  c = ' ' || c = '\t' || c = '\n' || c = '\r'

/-- JS `String.prototype.padStart(len, c)`. -/
def padStart (len : Nat) (c : Char) (s : JStr) : JStr :=
  List.replicate (len - s.length) c ++ s

/-- JS `String.prototype.padEnd(len, c)`. -/
def padEnd (len : Nat) (c : Char) (s : JStr) : JStr :=
  s ++ List.replicate (len - s.length) c

/-- JS `parseInt(s, 10)`: skip leading whitespace, accept an optional sign,
read the longest prefix of decimal digits; `NaN` (here `none`) when that
prefix is empty. -/
def jsParseInt (s : JStr) : Option Int :=
  let t := s.dropWhile jsWhitespace
  let neg : Bool := t.headD ' ' = '-'
  let body : JStr := if t.headD ' ' = '-' || t.headD ' ' = '+' then t.tail else t
  let ds := body.takeWhile isDigitChar
  if ds.isEmpty then none
  else if neg then some (-(digitsVal ds : Int)) else some ((digitsVal ds : Int))

/-- JS `str.split(sep)` for a single-character separator: the result always
has `count(sep) + 1` fields, empty fields included. -/
def jsSplit (sep : Char) : JStr → List JStr
  | [] => [[]]
  | c :: rest =>
    if c = sep then [] :: jsSplit sep rest
    else
      match jsSplit sep rest with
      | [] => [[c]]
      | h :: t => (c :: h) :: t

/-- `timeString.replace(/[']/g, ':')`, the apostrophe normalization used by
`formatLapTime` and `parseTimeToMs` (src/types/results.ts:489,529). -/
def replaceApostrophes (s : JStr) : JStr :=
  s.map fun c => if c = '\'' then ':' else c

/-- `msToTimeString` (src/types/results.ts:505-511): `"M:SS.mmm"` with the
seconds zero-padded to 2 digits and the milliseconds to 3, minutes unpadded. -/
def msToTimeString (ms : Nat) : JStr :=
  let minutes := ms / 60000
  let seconds := (ms % 60000) / 1000
  let milliseconds := ms % 1000
  natToChars minutes ++ ':' ::
    (padStart 2 '0' (natToChars seconds) ++ '.' :: padStart 3 '0' (natToChars milliseconds))

/-- `parseTimeToMs` (src/types/results.ts:527-545): normalize apostrophes,
split on `':'` into exactly two parts, `parseInt` the minutes, split the
second part on `'.'`, `parseInt` the seconds; a non-empty millisecond
fragment is right-padded to 3 characters with `'0'` and `parseInt`ed, a
missing or empty one contributes 0; any `NaN` (or wrong part count) gives 0. -/
def parseTimeToMs (timeString : JStr) : Int :=
  let cleanTime := replaceApostrophes timeString
  let parts := jsSplit ':' cleanTime
  if parts.length ≠ 2 then 0
  else
    let minutes := jsParseInt (parts.getD 0 [])
    let secondsParts := jsSplit '.' (parts.getD 1 [])
    let seconds := jsParseInt (secondsParts.getD 0 [])
    let msFrag := secondsParts.getD 1 []
    let milliseconds :=
      if msFrag.isEmpty then some (0 : Int) else jsParseInt (padEnd 3 '0' msFrag)
    match minutes, seconds, milliseconds with
    | some m, some s, some x => m * 60 * 1000 + s * 1000 + x
    | _, _, _ => 0

/-- The fixed category UUID table (src/types/results.ts:375-384). -/
structure CategoryIds where
  MOTOGP : String
  MOTO2 : String
  MOTO3 : String
  MOTOE : String

/-- `CATEGORY_IDS` constant (src/types/results.ts:375-384). -/
def CATEGORY_IDS : CategoryIds :=
  { MOTOGP := "737ab122-76e1-4081-bedb-334caaa18c70"
    MOTO2 := "ea854a67-73a4-4a28-ac77-d67b3b2a530a"
    MOTO3 := "1ab203aa-e292-4842-8bed-971911357af1"
    MOTOE := "cf196668-f900-4116-af79-810b91828a37" }

/-- ASCII uppercasing of one character, the effect of JS `toUpperCase` on
the ASCII range. -/
def asciiUpper (c : Char) : Char :=
  if 97 ≤ c.toNat ∧ c.toNat ≤ 122 then Char.ofNat (c.toNat - 32) else c

/-- `true` on `[A-Z0-9]`, the characters kept by the normalization regex in
`getCategoryId`. -/
def isUpperAlnum (c : Char) : Bool :=
  (65 ≤ c.toNat && c.toNat ≤ 90) || (48 ≤ c.toNat && c.toNat ≤ 57)

/-- `categoryName.toUpperCase().replace(/[^A-Z0-9]/g, '')`
(src/types/results.ts:400). -/
def normalizeCategoryName (s : JStr) : JStr :=
  (s.map asciiUpper).filter isUpperAlnum

/-- `getCategoryId` (src/types/results.ts:399-414). -/
def getCategoryId (categoryName : JStr) : Option String :=
  let normalizedName := normalizeCategoryName categoryName
  if normalizedName = "MOTOGP".toList then some CATEGORY_IDS.MOTOGP
  else if normalizedName = "MOTO2".toList then some CATEGORY_IDS.MOTO2
  else if normalizedName = "MOTO3".toList then some CATEGORY_IDS.MOTO3
  else if normalizedName = "MOTOE".toList then some CATEGORY_IDS.MOTOE
  else none

/-- The `APIError` shape thrown by `makeRequest`: a message and an optional
numeric HTTP status. -/
structure APIError where
  message : String
  status : Option Nat := none
deriving DecidableEq

/-- A JS value reaching the `catch` block of `makeRequest`, described by the
properties the handler inspects: truthy-object-ness, presence and content of
a `message` property, `instanceof Error`, and an optional `status` field. -/
structure JSThrownValue where
  isObj : Bool
  hasMessage : Bool
  message : String
  isErrorInstance : Bool
  status : Option Nat
deriving DecidableEq

/-- The `catch` block of `makeRequest` (src/client/MotoGPClient.ts:111-120):
a truthy object with a `message` property is rethrown unchanged; anything
else is wrapped into an `APIError` with no status whose message is the
`Error`'s message or the fallback `"Unknown error occurred"`. -/
def normalizeError (e : JSThrownValue) : APIError :=
  if e.isObj && e.hasMessage then
    { message := e.message, status := e.status }
  else
    { message := if e.isErrorInstance then e.message else "Unknown error occurred"
      status := none }

/-- Outcome of reading and JSON-decoding the response body. -/
inductive BodyOutcome (T : Type) where
  | parsed (data : T)
  | malformed (e : JSThrownValue)
deriving DecidableEq

/-- Outcome of the underlying `undici` `request` call: either it resolved
with an HTTP status code and a body, or it rejected (DNS failure, connection
failure, timeout) with some thrown value. -/
inductive FetchOutcome (T : Type) where
  | completed (statusCode : Nat) (body : BodyOutcome T)
  | failed (e : JSThrownValue)
deriving DecidableEq

/-- The `APIError` object literal thrown for a non-200 status
(src/client/MotoGPClient.ts:101-106), as the value seen by the `catch`
block: a plain object with `message` and `status` properties. -/
def statusErrorValue (sc : Nat) : JSThrownValue :=
  { isObj := true
    hasMessage := true
    message := "HTTP " ++ toString sc ++ ": " ++
      (if sc = 404 then "Not Found" else "Request Failed")
    isErrorInstance := false
    status := some sc }

/-- The `try` block of `makeRequest` (src/client/MotoGPClient.ts:89-110):
propagate a transport rejection, throw the status `APIError` on a non-200
status, propagate a body-decode rejection, return the parsed body on 200. -/
def tryBlock {T : Type} (outcome : FetchOutcome T) : Except JSThrownValue T :=
  match outcome with
  | .failed e => .error e
  | .completed sc body =>
    if sc ≠ 200 then .error (statusErrorValue sc)
    else
      match body with
      | .parsed d => .ok d
      | .malformed e => .error e

/-- `makeRequest`'s error behaviour (src/client/MotoGPClient.ts:89-120) as a
function of the transport outcome: the `try` block, with every thrown value
routed through the `catch` handler. -/
def makeRequest {T : Type} (outcome : FetchOutcome T) : Except APIError T :=
  match tryBlock outcome with
  | .ok d => .ok d
  | .error e => .error (normalizeError e)

/-- A query-parameter value as passed to `makeRequest`: the declared
`string | number | boolean`, or `undefined`/`null` slipping in at runtime. -/
inductive QueryValue where
  | str (s : String)
  | num (n : Int)
  | bool (b : Bool)
  | undef
  | null
deriving DecidableEq

/-- JS `String(value)` on a query value. -/
def jsStringOfValue : QueryValue → String
  | .str s => s
  | .num n => toString n
  | .bool b => if b then "true" else "false"
  | .undef => "undefined"
  | .null => "null"

/-- The dropped values: `value === undefined || value === null`, the negation
of the guard at src/client/MotoGPClient.ts:83. -/
def isNullish : QueryValue → Bool
  | .undef => true
  | .null => true
  | _ => false

/-- `url.searchParams.set(k, v)`: replace the value at an existing key,
append the pair otherwise (keys reaching it are unique, coming from
`Object.entries`). -/
def setSearchParam (ps : List (String × String)) (k v : String) :
    List (String × String) :=
  if ps.any (fun p => p.1 = k) then
    ps.map (fun p => if p.1 = k then (k, v) else p)
  else ps ++ [(k, v)]

/-- The query-construction loop of `makeRequest`
(src/client/MotoGPClient.ts:81-87): iterate over the entries of the optional
parameter map, skip `undefined`/`null` values, `set` the rest stringified. -/
def appendSearchParams (initial : List (String × String))
    (searchParams : Option (List (String × QueryValue))) :
    List (String × String) :=
  match searchParams with
  | none => initial
  | some entries =>
    entries.foldl
      (fun acc kv =>
        if isNullish kv.2 then acc
        else setSearchParam acc kv.1 (jsStringOfValue kv.2))
      initial

/-- The options object accepted by the `MotoGPClient` constructor; `none`
models an absent key. -/
structure ClientOptions where
  baseURL : Option String := none
  timeout : Option Int := none
  userAgent : Option String := none

/-- The configuration held by a constructed client. -/
structure MotoGPClient where
  baseURL : String
  timeout : Int
  userAgent : String
deriving DecidableEq

/-- JS `v || dflt` for a possibly-absent string: the default replaces an
absent value and the falsy `""`. -/
def jsOrDefaultString (v : Option String) (dflt : String) : String :=
  match v with
  | some s => if s = "" then dflt else s
  | none => dflt

/-- JS `v || dflt` for a possibly-absent number: the default replaces an
absent value and the falsy `0`. -/
def jsOrDefaultInt (v : Option Int) (dflt : Int) : Int :=
  match v with
  | some n => if n = 0 then dflt else n
  | none => dflt

/-- Default base URL (src/client/MotoGPClient.ts:62). -/
def defaultBaseURL : String := "https://api.motogp.pulselive.com/motogp/v1/"

/-- Default User-Agent (src/client/MotoGPClient.ts:64). -/
def defaultUserAgent : String :=
  "Mozilla/5.0 (Windows NT 10.0; Win64; x64) AppleWebKit/537.36 (KHTML, like Gecko) Chrome/125.0.0.0 Safari/537.36"

/-- The `MotoGPClient` constructor (src/client/MotoGPClient.ts:61-65): each
field is `options.field || default`. -/
def mkMotoGPClient (options : ClientOptions) : MotoGPClient :=
  { baseURL := jsOrDefaultString options.baseURL defaultBaseURL
    timeout := jsOrDefaultInt options.timeout 10000
    userAgent := jsOrDefaultString options.userAgent defaultUserAgent }

/-- The failure condition named by the error-handling contract of
`parseTimeToMs`: after apostrophe normalization the string does not split on
`':'` into exactly two parts, or the minutes or the seconds component does
not `parseInt`. -/
def parseTimeFails (s : JStr) : Prop :=
  let parts := jsSplit ':' (replaceApostrophes s)
  parts.length ≠ 2 ∨
    jsParseInt (parts.getD 0 []) = none ∨
    jsParseInt ((jsSplit '.' (parts.getD 1 [])).getD 0 []) = none

instance (s : JStr) : Decidable (parseTimeFails s) := by
  unfold parseTimeFails
  exact inferInstance

/-- Every character of the string is a decimal digit. -/
def allDigits (l : JStr) : Prop := ∀ c ∈ l, isDigitChar c = true

instance (l : JStr) : Decidable (allDigits l) := by
  unfold allDigits
  exact inferInstance

/-- Spec-side characterization of one step of the query loop: `none` for a
dropped (`undefined`/`null`) entry, the stringified pair otherwise. -/
def encodeParam (kv : String × QueryValue) : Option (String × String) :=
  if isNullish kv.2 then none else some (kv.1, jsStringOfValue kv.2)

example : parseTimeToMs "1:23.456".toList = 83456 := by decide
example : parseTimeToMs "invalid".toList = 0 := by decide
example : parseTimeToMs "".toList = 0 := by decide
example : parseTimeToMs "1:".toList = 0 := by decide
example : parseTimeToMs ":23".toList = 0 := by decide
example : parseTimeToMs "1:23".toList = 83000 := by decide
example : parseTimeToMs "1:23.4".toList = 83400 := by decide
example : parseTimeToMs "1:23.4567".toList = 87567 := by decide
example : msToTimeString 83456 = "1:23.456".toList := by decide
example : msToTimeString 0 = "0:00.000".toList := by decide
example : getCategoryId "MotoGP".toList = some CATEGORY_IDS.MOTOGP := by decide
example : getCategoryId "MOTO GP".toList = some CATEGORY_IDS.MOTOGP := by decide
example : getCategoryId "F1".toList = none := by decide

/-! ## Digit and character lemmas -/

theorem isDigitChar_spec {c : Char} (h : isDigitChar c = true) :
    48 ≤ c.toNat ∧ c.toNat ≤ 57 := by
  simpa [isDigitChar] using h

theorem ne_of_isDigitChar {c d : Char} (h : isDigitChar c = true)
    (hd : isDigitChar d = false) : c ≠ d := by
  intro he
  rw [he] at h
  rw [h] at hd
  exact Bool.noConfusion hd

theorem jsWhitespace_eq_false_of_digit {c : Char} (h : isDigitChar c = true) :
    jsWhitespace c = false := by
  have hs := isDigitChar_spec h
  by_contra hw
  rw [Bool.not_eq_false] at hw
  simp only [jsWhitespace, Bool.or_eq_true, decide_eq_true_eq] at hw
  rcases hw with ((rfl | rfl) | rfl) | rfl <;> exact absurd hs (by decide)

theorem digitVal_digitChar {d : Nat} (h : d < 10) : digitVal (digitChar d) = d := by
  interval_cases d <;> decide

theorem isDigitChar_digitChar {d : Nat} (h : d < 10) :
    isDigitChar (digitChar d) = true := by
  interval_cases d <;> decide

theorem digitsVal_foldl : ∀ (l : JStr) (a : Nat),
    l.foldl (fun a c => a * 10 + digitVal c) a = a * 10 ^ l.length + digitsVal l := by
  intro l
  induction l with
  | nil => intro a; simp [digitsVal]
  | cons c r ih =>
    intro a
    show r.foldl _ (a * 10 + digitVal c) = _
    rw [ih]
    have hc : digitsVal (c :: r) = r.foldl (fun a c => a * 10 + digitVal c) (digitVal c) := by
      show r.foldl _ (0 * 10 + digitVal c) = _
      rw [Nat.zero_mul, Nat.zero_add]
    rw [hc, ih (digitVal c), List.length_cons, pow_succ]
    ring

theorem digitsVal_append (l₁ l₂ : JStr) :
    digitsVal (l₁ ++ l₂) = digitsVal l₁ * 10 ^ l₂.length + digitsVal l₂ := by
  show (l₁ ++ l₂).foldl _ 0 = _
  rw [List.foldl_append]
  exact digitsVal_foldl l₂ (digitsVal l₁)

theorem digitsVal_replicate_zero (k : Nat) : digitsVal (List.replicate k '0') = 0 := by
  induction k with
  | zero => rfl
  | succ m ih =>
    rw [List.replicate_succ]
    show List.foldl _ (0 * 10 + digitVal '0') _ = 0
    have h0 : 0 * 10 + digitVal '0' = 0 := by decide
    rw [h0]
    exact ih

theorem digitsVal_padStart (k : Nat) (l : JStr) :
    digitsVal (padStart k '0' l) = digitsVal l := by
  rw [padStart, digitsVal_append, digitsVal_replicate_zero, Nat.zero_mul, Nat.zero_add]

/-! ## Decimal-representation lemmas -/

theorem natToCharsAux_allDigits : ∀ fuel n, ∀ c ∈ natToCharsAux fuel n, isDigitChar c = true := by
  intro fuel
  induction fuel with
  | zero =>
    intro n c hc
    cases n <;> simp [natToCharsAux] at hc
  | succ f ih =>
    intro n c hc
    cases n with
    | zero => simp [natToCharsAux] at hc
    | succ m =>
      simp only [natToCharsAux, List.mem_append, List.mem_singleton] at hc
      rcases hc with hc | hc
      · exact ih _ c hc
      · subst hc
        exact isDigitChar_digitChar (Nat.mod_lt _ (by omega))

theorem natToCharsAux_val : ∀ fuel n, n ≤ fuel → digitsVal (natToCharsAux fuel n) = n := by
  intro fuel
  induction fuel with
  | zero =>
    intro n h
    interval_cases n
    simp [natToCharsAux, digitsVal]
  | succ f ih =>
    intro n h
    cases n with
    | zero => simp [natToCharsAux, digitsVal]
    | succ m =>
      have hdiv : (m + 1) / 10 ≤ f := by omega
      simp only [natToCharsAux]
      rw [digitsVal_append, ih _ hdiv]
      have h10 : (m + 1) % 10 < 10 := Nat.mod_lt _ (by omega)
      simp only [List.length_singleton, pow_one]
      have hsing : digitsVal [digitChar ((m + 1) % 10)] = (m + 1) % 10 := by
        show 0 * 10 + digitVal (digitChar ((m + 1) % 10)) = _
        rw [Nat.zero_mul, Nat.zero_add, digitVal_digitChar h10]
      rw [hsing]
      omega

theorem natToCharsAux_length : ∀ fuel n k, n < 10 ^ k → (natToCharsAux fuel n).length ≤ k := by
  intro fuel
  induction fuel with
  | zero =>
    intro n k _
    cases n <;> simp [natToCharsAux]
  | succ f ih =>
    intro n k hk
    cases n with
    | zero => simp [natToCharsAux]
    | succ m =>
      have hk0 : k ≠ 0 := by
        rintro rfl
        simp at hk
      obtain ⟨k', rfl⟩ : ∃ k', k = k' + 1 := ⟨k - 1, by omega⟩
      have hdiv : (m + 1) / 10 < 10 ^ k' := by
        have hp : (10 : Nat) ^ (k' + 1) = 10 ^ k' * 10 := pow_succ 10 k'
        rw [Nat.div_lt_iff_lt_mul (by norm_num)]
        omega
      simp only [natToCharsAux, List.length_append, List.length_singleton]
      have := ih ((m + 1) / 10) k' hdiv
      omega

theorem natToChars_allDigits (n : Nat) : ∀ c ∈ natToChars n, isDigitChar c = true := by
  unfold natToChars
  split
  · intro c hc
    simp only [List.mem_singleton] at hc
    subst hc
    decide
  · exact natToCharsAux_allDigits n n

theorem natToChars_val (n : Nat) : digitsVal (natToChars n) = n := by
  unfold natToChars
  split
  · rename_i h
    subst h
    decide
  · exact natToCharsAux_val n n le_rfl

theorem natToChars_ne_nil (n : Nat) : natToChars n ≠ [] := by
  unfold natToChars
  split
  · simp
  · rename_i h
    cases n with
    | zero => exact absurd rfl h
    | succ m => simp [natToCharsAux]

theorem natToChars_length_le {n k : Nat} (hn : n < 10 ^ k) (hk : 0 < k) :
    (natToChars n).length ≤ k := by
  unfold natToChars
  split
  · simpa using hk
  · exact natToCharsAux_length n n k hn

/-! ## parseInt on digit strings -/

theorem jsParseInt_allDigits {l : JStr} (hne : l ≠ [])
    (hd : ∀ c ∈ l, isDigitChar c = true) : jsParseInt l = some ((digitsVal l : Nat) : Int) := by
  obtain ⟨c, t, rfl⟩ := List.exists_cons_of_ne_nil hne
  have hc : isDigitChar c = true := hd c (by simp)
  have hdrop : (c :: t).dropWhile jsWhitespace = c :: t := by
    rw [List.dropWhile_cons, jsWhitespace_eq_false_of_digit hc]
    simp
  have hcm : c ≠ '-' := ne_of_isDigitChar hc (by decide)
  have hcp : c ≠ '+' := ne_of_isDigitChar hc (by decide)
  have htake : (c :: t).takeWhile isDigitChar = c :: t :=
    List.takeWhile_eq_self_iff.mpr hd
  simp [jsParseInt, hdrop, htake, hcm, hcp]

/-! ## split lemmas -/

theorem jsSplit_ne_nil (sep : Char) : ∀ l : JStr, jsSplit sep l ≠ [] := by
  intro l
  induction l with
  | nil => simp [jsSplit]
  | cons c rest ih =>
    rw [jsSplit]
    split
    · simp
    · cases h : jsSplit sep rest with
      | nil => simp
      | cons hd tl => simp [h]

theorem jsSplit_eq_single {sep : Char} :
    ∀ {l : JStr}, (∀ c ∈ l, c ≠ sep) → jsSplit sep l = [l] := by
  intro l
  induction l with
  | nil => intro _; rfl
  | cons c rest ih =>
    intro h
    rw [jsSplit, if_neg (h c (by simp)), ih (fun c' hc' => h c' (by simp [hc']))]

theorem jsSplit_append {sep : Char} :
    ∀ (l₁ l₂ : JStr), (∀ c ∈ l₁, c ≠ sep) →
      jsSplit sep (l₁ ++ sep :: l₂) = l₁ :: jsSplit sep l₂ := by
  intro l₁
  induction l₁ with
  | nil =>
    intro l₂ _
    simp only [List.nil_append]
    rw [jsSplit, if_pos rfl]
  | cons c r ih =>
    intro l₂ h
    simp only [List.cons_append]
    rw [jsSplit, if_neg (h c (by simp)), ih l₂ (fun c' hc' => h c' (by simp [hc']))]

/-! ## apostrophe normalization -/

theorem replaceApostrophes_eq_self :
    ∀ {l : JStr}, (∀ c ∈ l, c ≠ '\'') → replaceApostrophes l = l := by
  intro l
  induction l with
  | nil => intro _; rfl
  | cons c r ih =>
    intro h
    show (if c = '\'' then ':' else c) :: replaceApostrophes r = c :: r
    rw [if_neg (h c (by simp)), ih (fun c' hc' => h c' (by simp [hc']))]

/-! ## padding lemmas -/

theorem padStart_ne_nil {l : JStr} (h : l ≠ []) (k : Nat) (c : Char) :
    padStart k c l ≠ [] := by
  rw [padStart]
  simp [h]

theorem padStart_length {k : Nat} {l : JStr} (h : l.length ≤ k) (c : Char) :
    (padStart k c l).length = k := by
  rw [padStart]
  simp
  omega

theorem padStart_allDigits {k : Nat} {l : JStr} (h : ∀ c ∈ l, isDigitChar c = true) :
    ∀ c ∈ padStart k '0' l, isDigitChar c = true := by
  intro c hc
  rw [padStart, List.mem_append] at hc
  rcases hc with hc | hc
  · rw [List.eq_of_mem_replicate hc]
    decide
  · exact h c hc

theorem padEnd_eq_self {k : Nat} {l : JStr} (h : k ≤ l.length) (c : Char) :
    padEnd k c l = l := by
  rw [padEnd]
  have : k - l.length = 0 := by omega
  rw [this]
  simp

theorem jsParseInt_padStart_natToChars (k n : Nat) :
    jsParseInt (padStart k '0' (natToChars n)) = some ((n : Nat) : Int) := by
  rw [jsParseInt_allDigits (padStart_ne_nil (natToChars_ne_nil n) k '0')
    (padStart_allDigits (natToChars_allDigits n)), digitsVal_padStart, natToChars_val]

theorem padStart_zero (c : Char) (l : JStr) : padStart 0 c l = l := by
  rw [padStart]
  simp

theorem jsParseInt_natToChars (n : Nat) : jsParseInt (natToChars n) = some ((n : Nat) : Int) := by
  have := jsParseInt_padStart_natToChars 0 n
  rwa [padStart_zero] at this

/-! ## Decomposition of msToTimeString and parseTimeToMs -/

theorem msToTimeString_decomp (m s x : Nat) (hs : s < 60) (hx : x < 1000) :
    msToTimeString (m * 60000 + s * 1000 + x) =
      natToChars m ++ ':' ::
        (padStart 2 '0' (natToChars s) ++ '.' :: padStart 3 '0' (natToChars x)) := by
  unfold msToTimeString
  have h1 : (m * 60000 + s * 1000 + x) / 60000 = m := by omega
  have h2 : (m * 60000 + s * 1000 + x) % 60000 / 1000 = s := by omega
  have h3 : (m * 60000 + s * 1000 + x) % 1000 = x := by omega
  rw [h1, h2, h3]

theorem parseTimeToMs_digits (mins secs frag : JStr)
    (hm : mins ≠ []) (hmd : allDigits mins)
    (hs : secs ≠ []) (hsd : allDigits secs)
    (hf : frag ≠ []) (hfd : allDigits frag) :
    parseTimeToMs (mins ++ ':' :: (secs ++ '.' :: frag)) =
      (digitsVal mins : Int) * 60000 + (digitsVal secs : Int) * 1000 +
        (digitsVal (padEnd 3 '0' frag) : Int) := by
  have hmc : ∀ c ∈ mins, c ≠ ':' := fun c hc => ne_of_isDigitChar (hmd c hc) (by decide)
  have hclean : replaceApostrophes (mins ++ ':' :: (secs ++ '.' :: frag)) =
      mins ++ ':' :: (secs ++ '.' :: frag) := by
    apply replaceApostrophes_eq_self
    intro c hc
    simp only [List.mem_append, List.mem_cons] at hc
    rcases hc with hc | rfl | hc | rfl | hc
    · exact ne_of_isDigitChar (hmd c hc) (by decide)
    · decide
    · exact ne_of_isDigitChar (hsd c hc) (by decide)
    · decide
    · exact ne_of_isDigitChar (hfd c hc) (by decide)
  have hsplit1 : jsSplit ':' (mins ++ ':' :: (secs ++ '.' :: frag)) =
      [mins, secs ++ '.' :: frag] := by
    rw [jsSplit_append _ _ hmc, jsSplit_eq_single]
    intro c hc
    simp only [List.mem_append, List.mem_cons] at hc
    rcases hc with hc | rfl | hc
    · exact ne_of_isDigitChar (hsd c hc) (by decide)
    · decide
    · exact ne_of_isDigitChar (hfd c hc) (by decide)
  have hsplit2 : jsSplit '.' (secs ++ '.' :: frag) = [secs, frag] := by
    rw [jsSplit_append _ _ (fun c hc => ne_of_isDigitChar (hsd c hc) (by decide)),
      jsSplit_eq_single (fun c hc => ne_of_isDigitChar (hfd c hc) (by decide))]
  have hpm := jsParseInt_allDigits hm hmd
  have hps := jsParseInt_allDigits hs hsd
  have hfe : frag.isEmpty = false := by
    cases frag with
    | nil => exact absurd rfl hf
    | cons a b => rfl
  have hpadne : padEnd 3 '0' frag ≠ [] := by
    rw [padEnd]
    simp [hf]
  have hpadd : ∀ c ∈ padEnd 3 '0' frag, isDigitChar c = true := by
    intro c hc
    rw [padEnd, List.mem_append] at hc
    rcases hc with hc | hc
    · exact hfd c hc
    · rw [List.eq_of_mem_replicate hc]
      decide
  have hpf := jsParseInt_allDigits hpadne hpadd
  simp [parseTimeToMs, hclean, hsplit1, hsplit2, hpm, hps, hpf, hfe]
  ring

theorem parseTimeToMs_digits_nofrag (mins secs : JStr)
    (hm : mins ≠ []) (hmd : allDigits mins)
    (hs : secs ≠ []) (hsd : allDigits secs) :
    parseTimeToMs (mins ++ ':' :: secs) =
      (digitsVal mins : Int) * 60000 + (digitsVal secs : Int) * 1000 := by
  have hmc : ∀ c ∈ mins, c ≠ ':' := fun c hc => ne_of_isDigitChar (hmd c hc) (by decide)
  have hclean : replaceApostrophes (mins ++ ':' :: secs) = mins ++ ':' :: secs := by
    apply replaceApostrophes_eq_self
    intro c hc
    simp only [List.mem_append, List.mem_cons] at hc
    rcases hc with hc | rfl | hc
    · exact ne_of_isDigitChar (hmd c hc) (by decide)
    · decide
    · exact ne_of_isDigitChar (hsd c hc) (by decide)
  have hsplit1 : jsSplit ':' (mins ++ ':' :: secs) = [mins, secs] := by
    rw [jsSplit_append _ _ hmc,
      jsSplit_eq_single (fun c hc => ne_of_isDigitChar (hsd c hc) (by decide))]
  have hsplit2 : jsSplit '.' secs = [secs] :=
    jsSplit_eq_single (fun c hc => ne_of_isDigitChar (hsd c hc) (by decide))
  have hpm := jsParseInt_allDigits hm hmd
  have hps := jsParseInt_allDigits hs hsd
  simp [parseTimeToMs, hclean, hsplit1, hsplit2, hpm, hps]
  ring

/-! ## Claim theorems: time helpers -/

/-- Claim C1: for every `(minutes, seconds, milliseconds)` with
`0 ≤ seconds < 60` and `0 ≤ milliseconds < 1000`,
`parseTimeToMs (msToTimeString (minutes*60000 + seconds*1000 + milliseconds))`
equals `minutes*60000 + seconds*1000 + milliseconds`: the two time-conversion
helpers round-trip on all canonical millisecond values. -/
theorem claim_C1_time_roundtrip (minutes seconds milliseconds : Nat)
    (hs : seconds < 60) (hx : milliseconds < 1000) :
    parseTimeToMs (msToTimeString (minutes * 60000 + seconds * 1000 + milliseconds)) =
      ((minutes * 60000 + seconds * 1000 + milliseconds : Nat) : Int) := by
  rw [msToTimeString_decomp _ _ _ hs hx]
  have h2ne := padStart_ne_nil (natToChars_ne_nil seconds) 2 '0'
  have h3ne := padStart_ne_nil (natToChars_ne_nil milliseconds) 3 '0'
  rw [parseTimeToMs_digits _ _ _ (natToChars_ne_nil minutes) (natToChars_allDigits minutes)
      h2ne (padStart_allDigits (natToChars_allDigits seconds))
      h3ne (padStart_allDigits (natToChars_allDigits milliseconds))]
  have hl3 : (natToChars milliseconds).length ≤ 3 := by
    refine natToChars_length_le ?_ (by norm_num)
    have h10 : (10 : Nat) ^ 3 = 1000 := by norm_num
    omega
  have hplen : (padStart 3 '0' (natToChars milliseconds)).length = 3 :=
    padStart_length hl3 '0'
  rw [padEnd_eq_self (le_of_eq hplen.symm) '0']
  rw [digitsVal_padStart, digitsVal_padStart, natToChars_val, natToChars_val, natToChars_val]
  push_cast
  ring

/-- Claim C1 witness: the round-trip theorem applied at (1, 23, 456). -/
theorem claim_C1_time_roundtrip_witness :
    parseTimeToMs (msToTimeString (1 * 60000 + 23 * 1000 + 456)) =
      ((1 * 60000 + 23 * 1000 + 456 : Nat) : Int) :=
  claim_C1_time_roundtrip 1 23 456 (by decide) (by decide)

/-- Claim C6: on well-formed input — a digit-string minutes part, a colon, a
digit-string seconds part, optionally followed by a dot and a digit fragment —
`parseTimeToMs` returns `minutes*60000 + seconds*1000 + milliseconds`, where a
missing fragment contributes 0 and a present fragment is right-padded with
trailing zeros to three digits before being read as an integer; in
particular `parseTimeToMs "1:23" = 83000` and `parseTimeToMs "1:23.4" = 83400`. -/
theorem claim_C6_wellformed_parse (mins secs frag : JStr)
    (hm : mins ≠ []) (hmd : allDigits mins)
    (hs : secs ≠ []) (hsd : allDigits secs)
    (hf : frag ≠ []) (hfd : allDigits frag) :
    parseTimeToMs (mins ++ ':' :: secs) =
      (digitsVal mins : Int) * 60000 + (digitsVal secs : Int) * 1000 ∧
    parseTimeToMs (mins ++ ':' :: (secs ++ '.' :: frag)) =
      (digitsVal mins : Int) * 60000 + (digitsVal secs : Int) * 1000 +
        (digitsVal (padEnd 3 '0' frag) : Int) ∧
    parseTimeToMs "1:23".toList = 83000 ∧
    parseTimeToMs "1:23.4".toList = 83400 :=
  ⟨parseTimeToMs_digits_nofrag mins secs hm hmd hs hsd,
   parseTimeToMs_digits mins secs frag hm hmd hs hsd hf hfd,
   by decide, by decide⟩

/-- Claim C6 witness: the well-formedness theorem applied at "1:23.4". -/
theorem claim_C6_wellformed_parse_witness :
    parseTimeToMs (['1'] ++ ':' :: (['2', '3'] ++ '.' :: ['4'])) =
      (digitsVal ['1'] : Int) * 60000 + (digitsVal ['2', '3'] : Int) * 1000 +
        (digitsVal (padEnd 3 '0' ['4']) : Int) :=
  (claim_C6_wellformed_parse ['1'] ['2', '3'] ['4'] (by decide) (by decide)
    (by decide) (by decide) (by decide) (by decide)).2.1

/-- Claim C7: for every natural `ms`, `msToTimeString ms` is
`"{minutes}:{SS}.{mmm}"` where the minutes part is the unpadded decimal form
of `ms / 60000`, the seconds part is a 2-character digit string of value
`ms % 60000 / 1000`, and the milliseconds part is a 3-character digit string
of value `ms % 1000`; in particular `msToTimeString 83456 = "1:23.456"` and
`msToTimeString 0 = "0:00.000"`. -/
theorem claim_C7_msToTimeString_format (ms : Nat) :
    (∃ mm ss xx : JStr,
      msToTimeString ms = mm ++ ':' :: (ss ++ '.' :: xx) ∧
      mm = natToChars (ms / 60000) ∧
      allDigits ss ∧ ss.length = 2 ∧ digitsVal ss = ms % 60000 / 1000 ∧
      allDigits xx ∧ xx.length = 3 ∧ digitsVal xx = ms % 1000) ∧
    msToTimeString 83456 = "1:23.456".toList ∧
    msToTimeString 0 = "0:00.000".toList := by
  refine ⟨⟨natToChars (ms / 60000), padStart 2 '0' (natToChars (ms % 60000 / 1000)),
    padStart 3 '0' (natToChars (ms % 1000)), rfl, rfl,
    padStart_allDigits (natToChars_allDigits _), ?_, ?_,
    padStart_allDigits (natToChars_allDigits _), ?_, ?_⟩, by decide, by decide⟩
  · refine padStart_length (natToChars_length_le ?_ (by norm_num)) '0'
    have h10 : (10 : Nat) ^ 2 = 100 := by norm_num
    omega
  · rw [digitsVal_padStart, natToChars_val]
  · refine padStart_length (natToChars_length_le ?_ (by norm_num)) '0'
    have h10 : (10 : Nat) ^ 3 = 1000 := by norm_num
    omega
  · rw [digitsVal_padStart, natToChars_val]

/-- Claim C10: a millisecond fragment longer than three digits is not
truncated: for a well-formed input whose fragment has length at least 3, the
entire fragment is read as an integer and added as milliseconds; in
particular `parseTimeToMs "1:23.4567" = 60000 + 23000 + 4567 = 87567`. -/
theorem claim_C10_no_truncation (mins secs frag : JStr)
    (hm : mins ≠ []) (hmd : allDigits mins)
    (hs : secs ≠ []) (hsd : allDigits secs)
    (hf : frag ≠ []) (hfd : allDigits frag) (hlen : 3 ≤ frag.length) :
    parseTimeToMs (mins ++ ':' :: (secs ++ '.' :: frag)) =
      (digitsVal mins : Int) * 60000 + (digitsVal secs : Int) * 1000 +
        (digitsVal frag : Int) ∧
    parseTimeToMs "1:23.4567".toList = 87567 := by
  constructor
  · rw [parseTimeToMs_digits mins secs frag hm hmd hs hsd hf hfd, padEnd_eq_self hlen '0']
  · decide

/-- Claim C10 witness: the no-truncation theorem applied at "1:23.4567". -/
theorem claim_C10_no_truncation_witness :
    parseTimeToMs (['1'] ++ ':' :: (['2', '3'] ++ '.' :: ['4', '5', '6', '7'])) =
      (digitsVal ['1'] : Int) * 60000 + (digitsVal ['2', '3'] : Int) * 1000 +
        (digitsVal ['4', '5', '6', '7'] : Int) :=
  (claim_C10_no_truncation ['1'] ['2', '3'] ['4', '5', '6', '7'] (by decide) (by decide)
    (by decide) (by decide) (by decide) (by decide) (by decide)).1

/-! ## Claim theorems: parse failures and the request pipeline -/

/-- Claim C2: for every input string on which parsing fails — after
apostrophe-to-colon normalization the string does not split on `':'` into
exactly two parts, or the minutes or the seconds component is non-numeric —
`parseTimeToMs` returns 0 (and, being total, never raises); in particular
`parseTimeToMs "invalid" = 0`, `parseTimeToMs "" = 0`,
`parseTimeToMs "1:" = 0` and `parseTimeToMs ":23" = 0`. -/
theorem claim_C2_parse_failure :
    (∀ s : JStr, parseTimeFails s → parseTimeToMs s = 0) ∧
    parseTimeToMs "invalid".toList = 0 ∧
    parseTimeToMs "".toList = 0 ∧
    parseTimeToMs "1:".toList = 0 ∧
    parseTimeToMs ":23".toList = 0 := by
  refine ⟨?_, by decide, by decide, by decide, by decide⟩
  intro s h
  unfold parseTimeFails at h
  simp only [List.getD_eq_getElem?_getD] at h
  simp only [parseTimeToMs]
  by_cases hl : (jsSplit ':' (replaceApostrophes s)).length = 2
  · rw [if_neg (by simp [hl])]
    rcases h with h | h | h
    · exact absurd hl h
    · simp [h]
    · cases hmin : jsParseInt ((jsSplit ':' (replaceApostrophes s)).getD 0 []) with
      | none => simp
      | some m => simp [h]
  · rw [if_pos hl]

/-- Claim C2 witness: the failure theorem applied at the concrete
unparseable input "x:y". -/
theorem claim_C2_parse_failure_witness :
    parseTimeFails "x:y".toList ∧ parseTimeToMs "x:y".toList = 0 :=
  ⟨by decide, claim_C2_parse_failure.1 _ (by decide)⟩

/-- Claim C3: for every response completed with a non-200 status code,
`makeRequest` fails with an error carrying that numeric status and the
message `"HTTP {status}: Not Found"` for 404 and
`"HTTP {status}: Request Failed"` for every other non-200 status; a 200
response never produces an error carrying a status (so never this error),
given that a JSON-decode rejection is an `Error` without a `status` field. -/
theorem claim_C3_http_status_error (T : Type) (sc : Nat) (body : BodyOutcome T) :
    (sc ≠ 200 → makeRequest (FetchOutcome.completed sc body) = Except.error
      { message := "HTTP " ++ toString sc ++ ": " ++
          (if sc = 404 then "Not Found" else "Request Failed")
        status := some sc }) ∧
    ((∀ e, body = BodyOutcome.malformed e → e.status = none) →
      ∀ err : APIError, makeRequest (FetchOutcome.completed 200 body) = Except.error err →
        err.status = none) := by
  constructor
  · intro hsc
    simp [makeRequest, tryBlock, hsc, normalizeError, statusErrorValue]
  · intro hb err herr
    cases body with
    | parsed d => simp [makeRequest, tryBlock] at herr
    | malformed e =>
      have he : e.status = none := hb e rfl
      simp [makeRequest, tryBlock] at herr
      rw [← herr]
      unfold normalizeError
      split <;> simp [he]

/-- Claim C3 witness: a 404 response yields the "Not Found" status error. -/
theorem claim_C3_http_status_error_witness :
    makeRequest (T := Nat) (FetchOutcome.completed 404 (BodyOutcome.parsed 0)) = Except.error
      { message := "HTTP " ++ toString 404 ++ ": " ++
          (if 404 = 404 then "Not Found" else "Request Failed")
        status := some 404 } :=
  (claim_C3_http_status_error Nat 404 (BodyOutcome.parsed 0)).1 (by decide)

/-- Claim C4: for every transport-level failure (the request rejected, or the
200-response body failed to decode) with a thrown value that has no `status`
— where, as in JS, an `Error` instance is an object with a `message`
property — `makeRequest` surfaces an error with no status code whose message
is the thrown value's description, or `"Unknown error occurred"` when the
thrown value carries no description; the single-shot pipeline surfaces it on
first occurrence. -/
theorem claim_C4_network_error (T : Type) (e : JSThrownValue)
    (hstat : e.status = none)
    (hjs : e.isErrorInstance = true → e.isObj = true ∧ e.hasMessage = true) :
    makeRequest (T := T) (FetchOutcome.failed e) = Except.error
      { message := if e.isObj && e.hasMessage then e.message else "Unknown error occurred"
        status := none } ∧
    makeRequest (T := T) (FetchOutcome.completed 200 (BodyOutcome.malformed e)) = Except.error
      { message := if e.isObj && e.hasMessage then e.message else "Unknown error occurred"
        status := none } := by
  have hnorm : normalizeError e =
      { message := if e.isObj && e.hasMessage then e.message else "Unknown error occurred"
        status := none } := by
    unfold normalizeError
    by_cases hc : e.isObj && e.hasMessage
    · rw [if_pos hc, if_pos hc, hstat]
    · rw [if_neg hc, if_neg hc]
      have hie : e.isErrorInstance = false := by
        by_contra hie'
        rw [Bool.not_eq_false] at hie'
        obtain ⟨h1, h2⟩ := hjs hie'
        rw [h1, h2] at hc
        exact hc rfl
      rw [hie]
      simp
  exact ⟨by simp [makeRequest, tryBlock, hnorm], by simp [makeRequest, tryBlock, hnorm]⟩

/-- Claim C4 witness: a DNS-style rejection carrying a message surfaces it
with no status code. -/
theorem claim_C4_network_error_witness :
    makeRequest (T := Nat) (FetchOutcome.failed
      ⟨true, true, "getaddrinfo ENOTFOUND nonexistent.api.com", true, none⟩) = Except.error
      { message := if (true : Bool) && (true : Bool) then
          "getaddrinfo ENOTFOUND nonexistent.api.com" else "Unknown error occurred"
        status := none } :=
  (claim_C4_network_error Nat
    ⟨true, true, "getaddrinfo ENOTFOUND nonexistent.api.com", true, none⟩
    rfl (fun _ => ⟨rfl, rfl⟩)).1

/-! ## Query-parameter lemmas -/

theorem nodup_keys_functional {α β : Type} :
    ∀ {l : List (α × β)}, (l.map Prod.fst).Nodup →
      ∀ {k : α} {a b : β}, (k, a) ∈ l → (k, b) ∈ l → a = b := by
  intro l
  induction l with
  | nil =>
    intro _ k a b ha _
    simp at ha
  | cons p rest ih =>
    intro hnd k a b ha hb
    obtain ⟨pk, pv⟩ := p
    rw [List.map_cons, List.nodup_cons] at hnd
    rcases List.mem_cons.mp ha with h1 | h1 <;> rcases List.mem_cons.mp hb with h2 | h2
    · obtain ⟨-, rfl⟩ := Prod.mk.injEq .. ▸ h1
      obtain ⟨-, rfl⟩ := Prod.mk.injEq .. ▸ h2
      rfl
    · obtain ⟨rfl, rfl⟩ := Prod.mk.injEq .. ▸ h1
      exact absurd (List.mem_map_of_mem Prod.fst h2) hnd.1
    · obtain ⟨rfl, rfl⟩ := Prod.mk.injEq .. ▸ h2
      exact absurd (List.mem_map_of_mem Prod.fst h1) hnd.1
    · exact ih hnd.2 h1 h2

theorem appendSearchParams_foldl :
    ∀ (entries : List (String × QueryValue)) (acc : List (String × String)),
      (entries.map Prod.fst).Nodup →
      (∀ k, k ∈ entries.map Prod.fst → k ∉ acc.map Prod.fst) →
      entries.foldl
        (fun acc kv =>
          if isNullish kv.2 then acc
          else setSearchParam acc kv.1 (jsStringOfValue kv.2)) acc
        = acc ++ entries.filterMap encodeParam := by
  intro entries
  induction entries with
  | nil =>
    intro acc _ _
    simp
  | cons kv rest ih =>
    intro acc hnd hdisj
    obtain ⟨k, v⟩ := kv
    rw [List.map_cons, List.nodup_cons] at hnd
    simp only [List.foldl_cons]
    by_cases hn : isNullish v = true
    · rw [if_pos hn, ih acc hnd.2 (fun k' hk' => hdisj k' (by simp [hk']))]
      simp [encodeParam, hn]
    · have hknotin : ¬ (acc.any fun p => p.1 = k) = true := by
        intro hany
        rw [List.any_eq_true] at hany
        obtain ⟨p, hp, hpk⟩ := hany
        rw [decide_eq_true_eq] at hpk
        exact hdisj k (by simp) (hpk ▸ List.mem_map_of_mem Prod.fst hp)
      rw [if_neg hn, setSearchParam, if_neg hknotin,
        ih (acc ++ [(k, jsStringOfValue v)]) hnd.2 ?_]
      · simp [encodeParam, hn]
      · intro k' hk'
        simp only [List.map_append, List.mem_append, List.map_cons, List.map_nil,
          List.mem_singleton, not_or]
        refine ⟨hdisj k' (by simp [hk']), ?_⟩
        intro hkk
        rw [hkk] at hk'
        exact hnd.1 hk'

/-- Claim C5: for every query-parameter map (with the distinct keys an object
guarantees), exactly the entries whose value is `undefined` or `null` are
dropped from the constructed URL query, every remaining entry appears with
its value converted to a string, everything in the query comes from a
remaining entry, and calling with no parameter map adds no query
parameters. -/
theorem claim_C5_query_params :
    (∀ initial, appendSearchParams initial none = initial) ∧
    (∀ (entries : List (String × QueryValue)), (entries.map Prod.fst).Nodup →
      (∀ k v, (k, v) ∈ entries → isNullish v = true →
        ∀ str, (k, str) ∉ appendSearchParams [] (some entries)) ∧
      (∀ k v, (k, v) ∈ entries → isNullish v = false →
        (k, jsStringOfValue v) ∈ appendSearchParams [] (some entries)) ∧
      (∀ k str, (k, str) ∈ appendSearchParams [] (some entries) →
        ∃ v, (k, v) ∈ entries ∧ isNullish v = false ∧ str = jsStringOfValue v)) := by
  refine ⟨fun initial => rfl, ?_⟩
  intro entries hnd
  have hfold : appendSearchParams [] (some entries) = entries.filterMap encodeParam := by
    have h := appendSearchParams_foldl entries [] hnd (by simp)
    simpa [appendSearchParams] using h
  refine ⟨?_, ?_, ?_⟩
  · intro k v hkv hnul str hmem
    rw [hfold, List.mem_filterMap] at hmem
    obtain ⟨⟨k', v'⟩, hmem', henc⟩ := hmem
    simp only [encodeParam] at henc
    by_cases h : isNullish v' = true
    · rw [if_pos h] at henc
      cases henc
    · rw [if_neg h] at henc
      rw [Option.some.injEq, Prod.mk.injEq] at henc
      obtain ⟨rfl, -⟩ := henc
      have hv : v' = v := nodup_keys_functional hnd hmem' hkv
      rw [hv] at h
      exact h hnul
  · intro k v hkv hnn
    rw [hfold, List.mem_filterMap]
    exact ⟨(k, v), hkv, by simp [encodeParam, hnn]⟩
  · intro k str hmem
    rw [hfold, List.mem_filterMap] at hmem
    obtain ⟨⟨k', v'⟩, hmem', henc⟩ := hmem
    simp only [encodeParam] at henc
    by_cases h : isNullish v' = true
    · rw [if_pos h] at henc
      cases henc
    · rw [if_neg h] at henc
      rw [Option.some.injEq, Prod.mk.injEq] at henc
      obtain ⟨rfl, rfl⟩ := henc
      exact ⟨v', hmem', by simpa using h, rfl⟩

/-- Claim C5 witness: in a concrete map with one defined and one undefined
entry, the defined one appears stringified and the undefined one is dropped. -/
theorem claim_C5_query_params_witness :
    (([("seasonYear", QueryValue.num 2024), ("test", QueryValue.undef)].map
      (Prod.fst (α := String) (β := QueryValue))).Nodup) ∧
    ("seasonYear", jsStringOfValue (QueryValue.num 2024)) ∈
      appendSearchParams [] (some [("seasonYear", QueryValue.num 2024), ("test", QueryValue.undef)]) :=
  ⟨by decide,
   (claim_C5_query_params.2 [("seasonYear", QueryValue.num 2024), ("test", QueryValue.undef)]
     (by decide)).2.1 "seasonYear" (QueryValue.num 2024) (by decide) (by decide)⟩

/-! ## Claim theorems: category lookup and client construction -/

/-- Claim C8: `getCategoryId` normalizes its input by upper-casing and
deleting every character outside `[A-Z0-9]`, and returns the fixed MOTOGP,
MOTO2, MOTO3 or MOTOE identifier constant exactly when the normalized form
equals `"MOTOGP"`, `"MOTO2"`, `"MOTO3"` or `"MOTOE"` respectively, and an
absent result for every other input; hence `getCategoryId "MotoGP"`,
`getCategoryId "motogp"` and `getCategoryId "MOTO GP"` are all the MotoGP
constant and `getCategoryId "F1"` is absent. -/
theorem claim_C8_getCategoryId :
    (∀ s : JStr, getCategoryId s = some CATEGORY_IDS.MOTOGP ↔
      normalizeCategoryName s = "MOTOGP".toList) ∧
    (∀ s : JStr, getCategoryId s = some CATEGORY_IDS.MOTO2 ↔
      normalizeCategoryName s = "MOTO2".toList) ∧
    (∀ s : JStr, getCategoryId s = some CATEGORY_IDS.MOTO3 ↔
      normalizeCategoryName s = "MOTO3".toList) ∧
    (∀ s : JStr, getCategoryId s = some CATEGORY_IDS.MOTOE ↔
      normalizeCategoryName s = "MOTOE".toList) ∧
    (∀ s : JStr, getCategoryId s = none ↔
      normalizeCategoryName s ∉
        ["MOTOGP".toList, "MOTO2".toList, "MOTO3".toList, "MOTOE".toList]) ∧
    getCategoryId "MotoGP".toList = some CATEGORY_IDS.MOTOGP ∧
    getCategoryId "motogp".toList = some CATEGORY_IDS.MOTOGP ∧
    getCategoryId "MOTO GP".toList = some CATEGORY_IDS.MOTOGP ∧
    getCategoryId "F1".toList = none := by
  refine ⟨?_, ?_, ?_, ?_, ?_, by decide, by decide, by decide, by decide⟩
  · intro s
    constructor
    · intro h
      simp only [getCategoryId] at h
      split_ifs at h with h1 h2 h3 h4
      · exact h1
      · exact absurd (Option.some.inj h) (by decide)
      · exact absurd (Option.some.inj h) (by decide)
      · exact absurd (Option.some.inj h) (by decide)
    · intro h
      simp only [getCategoryId]
      rw [if_pos h]
  · intro s
    constructor
    · intro h
      simp only [getCategoryId] at h
      split_ifs at h with h1 h2 h3 h4
      · exact absurd (Option.some.inj h) (by decide)
      · exact h2
      · exact absurd (Option.some.inj h) (by decide)
      · exact absurd (Option.some.inj h) (by decide)
    · intro h
      simp only [getCategoryId]
      rw [if_neg (by rw [h]; decide), if_pos h]
  · intro s
    constructor
    · intro h
      simp only [getCategoryId] at h
      split_ifs at h with h1 h2 h3 h4
      · exact absurd (Option.some.inj h) (by decide)
      · exact absurd (Option.some.inj h) (by decide)
      · exact h3
      · exact absurd (Option.some.inj h) (by decide)
    · intro h
      simp only [getCategoryId]
      rw [if_neg (by rw [h]; decide), if_neg (by rw [h]; decide), if_pos h]
  · intro s
    constructor
    · intro h
      simp only [getCategoryId] at h
      split_ifs at h with h1 h2 h3 h4
      · exact absurd (Option.some.inj h) (by decide)
      · exact absurd (Option.some.inj h) (by decide)
      · exact absurd (Option.some.inj h) (by decide)
      · exact h4
    · intro h
      simp only [getCategoryId]
      rw [if_neg (by rw [h]; decide), if_neg (by rw [h]; decide),
        if_neg (by rw [h]; decide), if_pos h]
  · intro s
    constructor
    · intro h hmem
      simp only [getCategoryId] at h
      simp only [List.mem_cons, List.not_mem_nil, or_false] at hmem
      rcases hmem with hc | hc | hc | hc
      · rw [if_pos hc] at h
        exact Option.noConfusion h
      · rw [if_neg (by rw [hc]; decide), if_pos hc] at h
        exact Option.noConfusion h
      · rw [if_neg (by rw [hc]; decide), if_neg (by rw [hc]; decide), if_pos hc] at h
        exact Option.noConfusion h
      · rw [if_neg (by rw [hc]; decide), if_neg (by rw [hc]; decide),
          if_neg (by rw [hc]; decide), if_pos hc] at h
        exact Option.noConfusion h
    · intro h
      have h1 : normalizeCategoryName s ≠ "MOTOGP".toList := fun hc => h (by simp [hc])
      have h2 : normalizeCategoryName s ≠ "MOTO2".toList := fun hc => h (by simp [hc])
      have h3 : normalizeCategoryName s ≠ "MOTO3".toList := fun hc => h (by simp [hc])
      have h4 : normalizeCategoryName s ≠ "MOTOE".toList := fun hc => h (by simp [hc])
      simp only [getCategoryId]
      rw [if_neg h1, if_neg h2, if_neg h3, if_neg h4]

/-- Claim C9: constructing a `MotoGPClient` replaces every falsy option value
with its default, not only missing ones: timeout 0 becomes 10000, an empty
base URL becomes the production base URL, an empty user agent becomes the
default browser User-Agent, while non-falsy values are kept; a client built
from all-falsy options equals one built from no options. -/
theorem claim_C9_falsy_defaults (options : ClientOptions) :
    (options.timeout = some 0 → (mkMotoGPClient options).timeout = 10000) ∧
    (options.baseURL = some "" → (mkMotoGPClient options).baseURL = defaultBaseURL) ∧
    (options.userAgent = some "" → (mkMotoGPClient options).userAgent = defaultUserAgent) ∧
    (∀ n, options.timeout = some n → n ≠ 0 → (mkMotoGPClient options).timeout = n) ∧
    (∀ s, options.baseURL = some s → s ≠ "" → (mkMotoGPClient options).baseURL = s) ∧
    (∀ s, options.userAgent = some s → s ≠ "" → (mkMotoGPClient options).userAgent = s) ∧
    mkMotoGPClient { baseURL := some "", timeout := some 0, userAgent := some "" } =
      mkMotoGPClient {} := by
  refine ⟨?_, ?_, ?_, ?_, ?_, ?_, by decide⟩
  · intro h
    simp [mkMotoGPClient, jsOrDefaultInt, h]
  · intro h
    simp [mkMotoGPClient, jsOrDefaultString, h]
  · intro h
    simp [mkMotoGPClient, jsOrDefaultString, h]
  · intro n h hn
    simp [mkMotoGPClient, jsOrDefaultInt, h, hn]
  · intro s h hs
    simp [mkMotoGPClient, jsOrDefaultString, h, hs]
  · intro s h hs
    simp [mkMotoGPClient, jsOrDefaultString, h, hs]

/-- Claim C9 witness: a client constructed with timeout 0 gets the default
timeout 10000. -/
theorem claim_C9_falsy_defaults_witness :
    (mkMotoGPClient { baseURL := some "", timeout := some 0, userAgent := some "" }).timeout
      = 10000 :=
  (claim_C9_falsy_defaults { baseURL := some "", timeout := some 0, userAgent := some "" }).1 rfl
